import Mathlib

/-!
Verification of the log-ingestion and normalization pipeline of the
ai-usage-tracker-cli repository (`src/ai_usage_tracker/parser.py` and the
schema in `src/ai_usage_tracker/database.py`), as a shallow embedding.

Modelling conventions:
* JSON objects that the parser probes are embedded as structures whose
  fields are `Option`-typed: `none` models an absent key, matching the
  Python `'key' in dict` / `dict.get('key')` probing.
* Token counts are `ℕ` and monetary costs are `ℚ≥0`, the value domains of
  the data model (counts and prices); Python float arithmetic is modelled
  by exact rational arithmetic.
* Python truthiness of optional strings (`if not provider:`) is modelled
  by `strTruthy`; the truthiness of a JSON usage value (which may be a
  present-but-falsy `{}`/`null`) is modelled by the inner `Option` of
  `Option (Option UsageFields)`.
* Database tables are lists of rows plus autoincrement counters; SQLite
  `SELECT ... fetchone()` is `List.find?` (first matching row) and
  `INSERT` appends a row and bumps the counter (`lastrowid`).
-/

/-- ASCII lowercasing of a string, character by character; models Python
`str.lower()` on the ASCII model identifiers the parser handles. Defined
through the character list so that it reduces in the kernel. -/
def lowerString (s : String) : String := String.mk (s.data.map Char.toLower)

/-- `containsSub pat l` is true when `pat` occurs as a contiguous sublist
of `l`; the recursion tries every suffix. -/
def containsSub (pat : List Char) : List Char → Bool
  | [] => pat.isEmpty
  | c :: rest => pat.isPrefixOf (c :: rest) || containsSub pat rest

/-- Python's substring test `pat in s`. -/
def substrIn (pat s : String) : Bool := containsSub pat.data s.data

/-- Embedding of `SessionParser._infer_provider_from_model`
(`parser.py:181-218`): lower-case the model identifier, then test the rule
table's pattern sets in order with Python's substring containment; first
matching group wins, default `"unknown"`. -/
def inferProviderFromModel (model : String) : String :=
  let ml := lowerString model
  if substrIn "gpt-" ml || substrIn "o1-" ml || substrIn "text-" ml
      || substrIn "dall-e" ml then "openai"
  else if substrIn "claude-" ml || substrIn "anthropic" ml then "anthropic"
  else if substrIn "gemini-" ml || substrIn "palm-" ml || substrIn "google" ml then "google"
  else if substrIn "deepseek-" ml then "deepseek"
  else if substrIn "command-" ml || substrIn "cohere" ml then "cohere"
  else if substrIn "mistral-" ml || substrIn "mixtral" ml then "mistral"
  else "unknown"

/-- Python truthiness of an optional string: `None` and `""` are falsy. -/
def strTruthy (o : Option String) : Bool :=
  match o with
  | none => false
  | some s => !s.isEmpty

/-- The token/cost keys the extractor reads from a usage JSON object via
`usage_data.get(key, default)`; `none` models an absent key. -/
structure UsageFields where
  input_tokens : Option ℕ
  output_tokens : Option ℕ
  total_tokens : Option ℕ
  input_cost : Option ℚ≥0
  output_cost : Option ℚ≥0
  total_cost : Option ℚ≥0
deriving DecidableEq

/-- A usage JSON value as found at one of the three locations: the outer
`Option` (at the use sites) models key presence, and `none` here models a
present but Python-falsy value (`null`, `{}`); a truthy object carries its
readable fields. -/
abbrev UsageVal := Option UsageFields

/-- The `metadata` sub-object of a message: the keys
`_extract_usage_from_line` probes on it. -/
structure MetadataObj where
  usage : Option UsageVal
  provider : Option String
  model : Option String
deriving DecidableEq

/-- The `custom` sub-object of a message; only its `usage` key is probed. -/
structure CustomObj where
  usage : Option UsageVal
deriving DecidableEq

/-- The message object nested in a log record: the keys
`_extract_usage_from_line` probes on it. -/
structure Message where
  role : Option String
  usage : Option UsageVal
  metadata : Option MetadataObj
  custom : Option CustomObj
  provider : Option String
  model : Option String
deriving DecidableEq

/-- The message `data.get('message', {})` yields when the key is absent. -/
def emptyMessage : Message := ⟨none, none, none, none, none, none⟩

/-- One decoded JSON log line, restricted to the keys the parser reads. -/
structure LogRecord where
  type : Option String
  message : Option Message
  timestamp : Option String
  id : Option String
deriving DecidableEq

/-- The normalized usage fact built by `_extract_usage_from_line`
(`parser.py:165-177`); `raw_data` holds the record itself, modelling the
verbatim `json.dumps(data)`. -/
structure UsageEntry where
  session_id : Option String
  provider : Option String
  model : Option String
  input_tokens : ℕ
  output_tokens : ℕ
  total_tokens : ℕ
  input_cost : ℚ≥0
  output_cost : ℚ≥0
  total_cost : ℚ≥0
  timestamp : String
  raw_data : LogRecord
deriving DecidableEq

/-- The `usage` lookup of the custom branch
(`parser.py:120-121`): consulted only when neither earlier location had a
`usage` key; yields the value when `custom` is present with a `usage` key,
else nothing. -/
def customUsage (m : Message) : UsageVal :=
  match m.custom with
  | some c =>
    match c.usage with
    | some v => v
    | none => none
  | none => none

/-- The three-location fallback chain of `_extract_usage_from_line`
(`parser.py:108-121`): `message.usage` if that key is present, else
`message.metadata.usage` if `metadata` is present with a `usage` key, else
the `custom` location. The result is the (possibly falsy) value of the
first location whose key is present. -/
def lookupUsageData (m : Message) : UsageVal :=
  match m.usage with
  | some v => v
  | none =>
    match m.metadata with
    | some md =>
      match md.usage with
      | some v => v
      | none => customUsage m
    | none => customUsage m

/-- The provider/model resolution of `_extract_usage_from_line`
(`parser.py:126-139`): read both from the message; when `provider` is
falsy and `metadata` is present, re-read both from `metadata`; finally,
when `provider` is still falsy and `model` is truthy, infer the provider
from the model name. -/
def resolveProviderModel (m : Message) : Option String × Option String :=
  let provider0 := m.provider
  let model0 := m.model
  let pm :=
    if strTruthy provider0 then (provider0, model0)
    else
      match m.metadata with
      | some md => (md.provider, md.model)
      | none => (provider0, model0)
  if !(strTruthy pm.1) && strTruthy pm.2 then
    (some (inferProviderFromModel (pm.2.getD "")), pm.2)
  else pm

/-- The straight-line tail of `_extract_usage_from_line`
(`parser.py:126-177`), run once a truthy usage value `u` has been found:
resolve provider/model, read and complete the token counts
(`parser.py:141-148`) and the costs (`parser.py:150-157`), pick the
timestamp (`parser.py:159-162`), and assemble the usage fact. -/
def mkUsageEntry (now : String) (r : LogRecord) (u : UsageFields) : UsageEntry :=
  let message := r.message.getD emptyMessage
  let pm := resolveProviderModel message
  let input_tokens := u.input_tokens.getD 0
  let output_tokens := u.output_tokens.getD 0
  let total_tokens0 := u.total_tokens.getD 0
  let total_tokens :=
    if total_tokens0 = 0 ∧ (0 < input_tokens ∨ 0 < output_tokens) then
      input_tokens + output_tokens
    else total_tokens0
  let input_cost := u.input_cost.getD 0
  let output_cost := u.output_cost.getD 0
  let total_cost0 := u.total_cost.getD 0
  let total_cost :=
    if total_cost0 = 0 ∧ (0 < input_cost ∨ 0 < output_cost) then
      input_cost + output_cost
    else total_cost0
  let timestamp := if strTruthy r.timestamp then r.timestamp.getD "" else now
  { session_id := r.id
    provider := pm.1
    model := pm.2
    input_tokens := input_tokens
    output_tokens := output_tokens
    total_tokens := total_tokens
    input_cost := input_cost
    output_cost := output_cost
    total_cost := total_cost
    timestamp := timestamp
    raw_data := r }

/-- Embedding of `SessionParser._extract_usage_from_line`
(`parser.py:88-179`). `now` is the injected wall clock used when the
record carries no truthy timestamp (`datetime.now().isoformat()`).
Returns `none` ("not applicable") unless the record type is `"message"`,
the message role is `"assistant"`, and the fallback chain finds a truthy
usage value. -/
def extractUsageFromLine (now : String) (r : LogRecord) : Option UsageEntry :=
  if r.type ≠ some "message" then none
  else
    let message := r.message.getD emptyMessage
    if message.role ≠ some "assistant" then none
    else
      match lookupUsageData message with
      | none => none
      | some u => some (mkUsageEntry now r u)

/-- A row of the `providers` table, restricted to the columns the
ingestion path reads or writes (`name` is the natural key,
`parser.py:300`). -/
structure ProviderRow where
  id : ℕ
  name : String
deriving DecidableEq

/-- A row of the `models` table, restricted to the columns the ingestion
path reads or writes; `input_cost`/`output_cost` are the nullable pricing
columns (`database.py:68-69`), never written by ingestion. -/
structure ModelRow where
  id : ℕ
  provider_id : ℕ
  model_id : String
  name : String
  input_cost : Option ℚ≥0
  output_cost : Option ℚ≥0
deriving DecidableEq

/-- A row of the `sessions` table, restricted to the columns the
ingestion path reads or writes. -/
structure SessionRow where
  id : ℕ
  session_key : String
  started_at : String
deriving DecidableEq

/-- A row of the `usage_entries` table as inserted by
`save_usage_entries` (`parser.py:266-283`), including the cache columns
the INSERT hard-codes. -/
structure UsageEntryRow where
  session_id : ℕ
  model_id : ℕ
  input_tokens : ℕ
  output_tokens : ℕ
  cache_read_tokens : ℕ
  cache_write_tokens : ℕ
  input_cost : ℚ≥0
  output_cost : ℚ≥0
  cache_read_cost : ℚ≥0
  cache_write_cost : ℚ≥0
  total_cost : ℚ≥0
  timestamp : String
  metadata_json : LogRecord
deriving DecidableEq

/-- The database state the ingestion path touches: each table is the list
of its rows in insertion order, with an autoincrement counter per table
that has a surrogate primary key. -/
structure DBState where
  providers : List ProviderRow
  models : List ModelRow
  sessions : List SessionRow
  entries : List UsageEntryRow
  nextProviderId : ℕ
  nextModelId : ℕ
  nextSessionId : ℕ
deriving DecidableEq

/-- A database with no rows. -/
def emptyDB : DBState := ⟨[], [], [], [], 1, 1, 1⟩

/-- `if not provider_name: provider_name = 'unknown'` (`parser.py:296-297`). -/
def normProviderName (p : Option String) : String :=
  if strTruthy p then p.getD "" else "unknown"

/-- `if not model_name: model_name = 'unknown'` (`parser.py:316-317`). -/
def normModelName (m : Option String) : String :=
  if strTruthy m then m.getD "" else "unknown"

/-- `re.sub(r'[^a-zA-Z0-9_-]', '-', model_name.lower())`
(`parser.py:320`): lower-case, then replace every character outside
`[A-Za-z0-9_-]` by `-`. -/
def sanitizeModelId (m : String) : String :=
  String.mk ((lowerString m).data.map
    (fun c => if c.isAlphanum || c == '_' || c == '-' then c else '-'))

/-- Embedding of `SessionParser._get_or_create_provider`
(`parser.py:294-312`): normalize the name, fetch the first row with that
name, else insert a fresh row and return its `lastrowid`. -/
def getOrCreateProvider (p : Option String) (s : DBState) : ℕ × DBState :=
  let nm := normProviderName p
  match s.providers.find? (fun r => r.name == nm) with
  | some r => (r.id, s)
  | none =>
    (s.nextProviderId,
      { s with
        providers := s.providers ++ [⟨s.nextProviderId, nm⟩]
        nextProviderId := s.nextProviderId + 1 })

/-- Embedding of `SessionParser._get_or_create_model`
(`parser.py:314-339`): normalize and sanitize the name, fetch the first
row with this `(provider_id, model_id)` pair, else insert a fresh row
(with null pricing) and return its `lastrowid`. -/
def getOrCreateModel (pid : ℕ) (m : Option String) (s : DBState) : ℕ × DBState :=
  let nm := normModelName m
  let mid := sanitizeModelId nm
  match s.models.find? (fun r => r.provider_id == pid && r.model_id == mid) with
  | some r => (r.id, s)
  | none =>
    (s.nextModelId,
      { s with
        models := s.models ++ [⟨s.nextModelId, pid, mid, nm, none, none⟩]
        nextModelId := s.nextModelId + 1 })

/-- The session key synthesized for a key-less record
(`parser.py:345`, `f"session-{hash(timestamp) % 1000000}"`): Python's
per-process-deterministic `hash` is modelled by the timestamp string
itself, preserving determinism within a run. -/
def synthSessionKey (timestamp : String) : String := "session-" ++ timestamp

/-- Embedding of `SessionParser._get_or_create_session`
(`parser.py:341-366`): use the entry's key if truthy, else synthesize one
from the timestamp; fetch the first row with that key, else insert a
fresh row (the `started_at` timestamp parsing is modelled by storing the
timestamp string). -/
def getOrCreateSession (key : Option String) (timestamp : String) (s : DBState) :
    ℕ × DBState :=
  let k := if strTruthy key then key.getD "" else synthSessionKey timestamp
  match s.sessions.find? (fun r => r.session_key == k) with
  | some r => (r.id, s)
  | none =>
    (s.nextSessionId,
      { s with
        sessions := s.sessions ++ [⟨s.nextSessionId, k, timestamp⟩]
        nextSessionId := s.nextSessionId + 1 })

/-- Embedding of `SessionParser._get_model_pricing` (`parser.py:368-380`):
the pricing pair of the model row with this id, provided both the
`input_cost` and `output_cost` columns are non-null. -/
def getModelPricing (mid : ℕ) (s : DBState) : Option (ℚ≥0 × ℚ≥0) :=
  match s.models.find? (fun r => r.id == mid) with
  | some m =>
    match m.input_cost, m.output_cost with
    | some a, some b => some (a, b)
    | _, _ => none
  | none => none

/-- The resolved cost triple stored on a usage entry row. -/
structure Costs where
  input_cost : ℚ≥0
  output_cost : ℚ≥0
  total_cost : ℚ≥0
deriving DecidableEq

/-- The cost-recomputation block of `save_usage_entries`
(`parser.py:253-264`): when the extracted total cost is zero and a token
count is positive, and the catalog pricing lookup succeeded, recompute
all three costs from the token counts and unit costs; in every other case
pass the extractor's costs through unchanged. -/
def resolveCosts (e : UsageEntry) (pricing : Option (ℚ≥0 × ℚ≥0)) : Costs :=
  if e.total_cost = 0 ∧ (0 < e.input_tokens ∨ 0 < e.output_tokens) then
    match pricing with
    | some pr =>
      let ic := (e.input_tokens : ℚ≥0) * pr.1
      let oc := (e.output_tokens : ℚ≥0) * pr.2
      ⟨ic, oc, ic + oc⟩
    | none => ⟨e.input_cost, e.output_cost, e.total_cost⟩
  else ⟨e.input_cost, e.output_cost, e.total_cost⟩

/-- The per-fact body of the `save_usage_entries` loop
(`parser.py:242-285`): resolve/create provider, model and session, run
the cost resolution against the model's stored pricing, and insert one
usage entry row (cache columns hard-coded to zero). -/
def persistFact (e : UsageEntry) (s : DBState) : DBState :=
  let ps := getOrCreateProvider e.provider s
  let ms := getOrCreateModel ps.1 e.model ps.2
  let ss := getOrCreateSession e.session_id e.timestamp ms.2
  let c := resolveCosts e (getModelPricing ms.1 ss.2)
  { ss.2 with
    entries := ss.2.entries ++
      [⟨ss.1, ms.1, e.input_tokens, e.output_tokens, 0, 0,
        c.input_cost, c.output_cost, 0, 0, c.total_cost, e.timestamp, e.raw_data⟩] }

/-- The control-flow skeleton of `save_usage_entries`
(`parser.py:240-292`): each fact's persistence attempt is a step that may
fail (`none` models a raised-and-caught exception); a failure is logged
and skipped, a success bumps `saved_count`. Returns the count of
successful insertions, the per-fact success log (in batch order), and the
final state. -/
def saveEntriesWith (step : UsageEntry → DBState → Option DBState) :
    List UsageEntry → DBState → ℕ × List Bool × DBState
  | [], s => (0, [], s)
  | e :: rest, s =>
    match step e s with
    | some s1 =>
      let r := saveEntriesWith step rest s1
      (r.1 + 1, true :: r.2.1, r.2.2)
    | none =>
      let r := saveEntriesWith step rest s
      (r.1, false :: r.2.1, r.2.2)

/-- `SessionParser.save_usage_entries` with the per-fact body that
succeeds on every fact (the no-exception run of `parser.py:242-285`):
returns the saved count and the final database state. -/
def saveUsageEntries (entries : List UsageEntry) (s : DBState) : ℕ × DBState :=
  let r := saveEntriesWith (fun e st => some (persistFact e st)) entries s
  (r.1, r.2.2)

/-- One line of a session JSONL file, as the parse loop sees it after
`line.strip()`: blank, JSON that fails to decode, or a decoded record. -/
inductive FileLine
  | blank : FileLine
  | malformed : FileLine
  | record : LogRecord → FileLine
deriving DecidableEq

/-- The line loop of `SessionParser.parse_session_file`
(`parser.py:58-81`), carrying the 1-based line number: a line is skipped
when incremental parsing has already processed it; a blank line is
skipped; a JSON decode failure is reported and only that line is skipped;
a decoded record goes through the extractor and, when a usage fact
results, is accumulated and counted. -/
def parseLines (now : String) (inc : Bool) (lastProcessed : ℕ) :
    List FileLine → ℕ → ℕ × List UsageEntry
  | [], _ => (0, [])
  | l :: rest, lineNum =>
    let next := parseLines now inc lastProcessed rest (lineNum + 1)
    if inc ∧ lineNum ≤ lastProcessed then next
    else
      match l with
      | .blank => next
      | .malformed => next
      | .record r =>
        match extractUsageFromLine now r with
        | some e => (next.1 + 1, e :: next.2)
        | none => next

/-- Embedding of `SessionParser.parse_session_file` (`parser.py:36-86`)
on an existing file's lines: returns `(entries_processed, entries)`. -/
def parseSessionFile (now : String) (lines : List FileLine)
    (inc : Bool) (lastProcessed : ℕ) : ℕ × List UsageEntry :=
  parseLines now inc lastProcessed lines 1

/-- Embedding of `SessionParser.parse_directory` (`parser.py:382-421`) on
the discovered files' contents: each file is parsed with the
`parse_session_file` defaults (`incremental=True`, `last_processed_line=0`,
so nothing is skipped), a nonempty fact list is persisted, every file
counts as processed, and the saved counts accumulate. Returns
`(files_processed, total_entries, final state)`. -/
def parseDirectory (now : String) : List (List FileLine) → DBState → ℕ × ℕ × DBState
  | [], s => (0, 0, s)
  | f :: rest, s =>
    let pr := parseSessionFile now f true 0
    let sv := if pr.2.isEmpty then (0, s) else saveUsageEntries pr.2 s
    let acc := parseDirectory now rest sv.2
    (acc.1 + 1, sv.1 + acc.2.1, acc.2.2)

/-- A usage JSON object with none of the readable keys present. -/
def noFields : UsageFields := ⟨none, none, none, none, none, none⟩

/-- A log record with none of the probed keys present. -/
def nullRecord : LogRecord := ⟨none, none, none, none⟩

/-- The usage value at `message.usage` in the fallback-priority scenario:
100 input and 50 output tokens. -/
def mainUsage : UsageFields :=
  { noFields with input_tokens := some 100, output_tokens := some 50 }

/-- The conflicting usage value at `message.metadata.usage` in the
fallback-priority scenario: 7 input and 8 output tokens. -/
def metaUsage : UsageFields :=
  { noFields with input_tokens := some 7, output_tokens := some 8 }

/-- The fallback-priority scenario record: an assistant message carrying
usage both at `message.usage` and at `message.metadata.usage`, with
different values. -/
def priorityRec : LogRecord :=
  { type := some "message"
    message := some
      { role := some "assistant"
        usage := some (some mainUsage)
        metadata := some ⟨some (some metaUsage), none, none⟩
        custom := none
        provider := some "openai"
        model := some "gpt-4o" }
    timestamp := some "2024-01-01T00:00:00"
    id := some "sess-1" }

/-- The provider/model fallback record: the model is set directly on the
message, the provider is not, and `metadata` is present carrying a
different model. -/
def shadowedModelRec : LogRecord :=
  { type := some "message"
    message := some
      { role := some "assistant"
        usage := some (some { noFields with input_tokens := some 1 })
        metadata := some ⟨none, none, some "other"⟩
        custom := none
        provider := none
        model := some "gpt-4o" }
    timestamp := some "t1"
    id := none }

/-- A record that is not applicable to extraction: its type is not
`"message"`. -/
def noteRec : LogRecord :=
  { type := some "note"
    message := some
      { role := some "assistant"
        usage := some (some mainUsage)
        metadata := none
        custom := none
        provider := none
        model := some "gpt-4o" }
    timestamp := some "t1"
    id := none }

/-- An applicable assistant-message record used to instantiate universal
theorems: usage directly on the message, no timestamp (so the injected
clock is used). -/
def plainUsageRec : LogRecord :=
  { type := some "message"
    message := some
      { role := some "assistant"
        usage := some (some { noFields with input_tokens := some 2, output_tokens := some 3 })
        metadata := none
        custom := none
        provider := none
        model := some "claude-3-5-haiku" }
    timestamp := none
    id := some "sess-2" }

/-- A minimal usage fact used to instantiate persistence theorems. -/
def plainFact : UsageEntry :=
  { session_id := none
    provider := some "openai"
    model := some "gpt-4o"
    input_tokens := 1
    output_tokens := 2
    total_tokens := 3
    input_cost := 0
    output_cost := 0
    total_cost := 0
    timestamp := "t"
    raw_data := nullRecord }

/-- A database state already holding a provider row named `"openai"`. -/
def seededDB : DBState :=
  { providers := [⟨1, "openai"⟩]
    models := []
    sessions := []
    entries := []
    nextProviderId := 2
    nextModelId := 1
    nextSessionId := 1 }

/-- Three valid usage lines for the directory-scan scenario. -/
def usageLine (n : ℕ) : LogRecord :=
  { type := some "message"
    message := some
      { role := some "assistant"
        usage := some (some { noFields with input_tokens := some n })
        metadata := none
        custom := none
        provider := some "openai"
        model := some "gpt-4o" }
    timestamp := some "t2"
    id := some "sess-3" }

/-- Directory-scan scenario, first file: 3 valid usage lines and 1
malformed JSON line. -/
def scanFileA : List FileLine :=
  [FileLine.record (usageLine 1), FileLine.record (usageLine 2),
   FileLine.malformed, FileLine.record (usageLine 3)]

/-- Directory-scan scenario, second file: one decodable line that is not
a usage record, so 0 usage lines. -/
def scanFileB : List FileLine := [FileLine.record noteRec]

/-- `SELECT ... fetchone()` over an extended table: a lookup that already
succeeds is unaffected by appended rows. -/
theorem find?_append_some {α : Type} (p : α → Bool) {l₁ : List α} (l₂ : List α)
    {a : α} (h : l₁.find? p = some a) : (l₁ ++ l₂).find? p = some a := by
  induction l₁ with
  | nil => simp at h
  | cons x xs ih =>
    rw [List.find?_cons] at h
    rw [List.cons_append, List.find?_cons]
    split at h
    · exact h
    · exact ih h

/-- A lookup that finds nothing in the old rows continues into the
appended rows. -/
theorem find?_append_none {α : Type} (p : α → Bool) {l₁ : List α} (l₂ : List α)
    (h : l₁.find? p = none) : (l₁ ++ l₂).find? p = l₂.find? p := by
  induction l₁ with
  | nil => simp
  | cons x xs ih =>
    rw [List.find?_cons] at h
    rw [List.cons_append, List.find?_cons]
    split at h
    · exact absurd h (by simp)
    · exact ih h

/-- Characterization of a successful extraction: the record type is
`"message"`, the role is `"assistant"`, the fallback chain found a truthy
usage value, and the fact is the one assembled from it. -/
theorem extract_eq_some_iff (now : String) (r : LogRecord) (e : UsageEntry) :
    extractUsageFromLine now r = some e ↔
      r.type = some "message" ∧ (r.message.getD emptyMessage).role = some "assistant" ∧
      ∃ u, lookupUsageData (r.message.getD emptyMessage) = some u ∧
        e = mkUsageEntry now r u := by
  unfold extractUsageFromLine
  by_cases h1 : r.type = some "message"
  · by_cases h2 : (r.message.getD emptyMessage).role = some "assistant"
    · cases hl : lookupUsageData (r.message.getD emptyMessage) with
      | none => simp [h1, h2, hl]
      | some u => simp [h1, h2, hl, eq_comm]
    · simp [h1, h2]
  · simp [h1]

theorem mkUsageEntry_input_tokens (now : String) (r : LogRecord) (u : UsageFields) :
    (mkUsageEntry now r u).input_tokens = u.input_tokens.getD 0 := rfl

theorem mkUsageEntry_output_tokens (now : String) (r : LogRecord) (u : UsageFields) :
    (mkUsageEntry now r u).output_tokens = u.output_tokens.getD 0 := rfl

theorem mkUsageEntry_total_tokens (now : String) (r : LogRecord) (u : UsageFields) :
    (mkUsageEntry now r u).total_tokens =
      if u.total_tokens.getD 0 = 0 ∧
          (0 < u.input_tokens.getD 0 ∨ 0 < u.output_tokens.getD 0) then
        u.input_tokens.getD 0 + u.output_tokens.getD 0
      else u.total_tokens.getD 0 := rfl

theorem mkUsageEntry_input_cost (now : String) (r : LogRecord) (u : UsageFields) :
    (mkUsageEntry now r u).input_cost = u.input_cost.getD 0 := rfl

theorem mkUsageEntry_output_cost (now : String) (r : LogRecord) (u : UsageFields) :
    (mkUsageEntry now r u).output_cost = u.output_cost.getD 0 := rfl

theorem mkUsageEntry_total_cost (now : String) (r : LogRecord) (u : UsageFields) :
    (mkUsageEntry now r u).total_cost =
      if u.total_cost.getD 0 = 0 ∧
          (0 < u.input_cost.getD 0 ∨ 0 < u.output_cost.getD 0) then
        u.input_cost.getD 0 + u.output_cost.getD 0
      else u.total_cost.getD 0 := rfl

theorem mkUsageEntry_raw_data (now : String) (r : LogRecord) (u : UsageFields) :
    (mkUsageEntry now r u).raw_data = r := rfl

theorem mkUsageEntry_model (now : String) (r : LogRecord) (u : UsageFields) :
    (mkUsageEntry now r u).model =
      (resolveProviderModel (r.message.getD emptyMessage)).2 := rfl

/-- C6: Provider Inference is total and deterministic over every
model-identifier input: being a pure function it always returns one of
the seven rule-table provider names, with `"unknown"` as the no-match
default; on the reference inputs it maps `"gpt-4o-mini"` to `"openai"`,
`"claude-3-5-haiku"` to `"anthropic"`, `"banana-llm"` to `"unknown"`, and
the empty string to `"unknown"`. -/
theorem inferProvider_total_and_reference_values :
    (∀ m : String,
        inferProviderFromModel m = "openai" ∨ inferProviderFromModel m = "anthropic" ∨
        inferProviderFromModel m = "google" ∨ inferProviderFromModel m = "deepseek" ∨
        inferProviderFromModel m = "cohere" ∨ inferProviderFromModel m = "mistral" ∨
        inferProviderFromModel m = "unknown") ∧
    inferProviderFromModel "gpt-4o-mini" = "openai" ∧
    inferProviderFromModel "claude-3-5-haiku" = "anthropic" ∧
    inferProviderFromModel "banana-llm" = "unknown" ∧
    inferProviderFromModel "" = "unknown" := by
  refine ⟨fun m => ?_, by decide, by decide, by decide, by decide⟩
  unfold inferProviderFromModel
  dsimp only
  split_ifs <;> tauto

/-- When the fallback chain finds no truthy usage value, the record is
not applicable: extraction returns nothing. -/
theorem extract_of_lookup_none (now : String) (r : LogRecord)
    (h : lookupUsageData (r.message.getD emptyMessage) = none) :
    extractUsageFromLine now r = none := by
  unfold extractUsageFromLine
  by_cases h1 : r.type = some "message"
  · by_cases h2 : (r.message.getD emptyMessage).role = some "assistant"
    · simp [h1, h2, h]
    · simp [h1, h2]
  · simp [h1]

/-- C2: the extractor searches usage data in exactly three locations in
fixed priority order — `message.usage`, then `message.metadata.usage`,
then `message.custom.usage` — and the first location whose key is
present wins: (1) when the `usage` key is present on the message its
value is used whatever the other locations hold; (2) when it is absent
and `metadata` carries a `usage` key, that value is used whatever
`custom` holds; (3) the `custom` location is used only when neither
earlier key is present; (4) with no `usage` key anywhere, nothing is
found; (5)-(6) an empty value at the first or second matching location
makes the record not applicable, the later locations never being
consulted; and on the concrete record carrying usage both at
`message.usage` (100/50) and `message.metadata.usage` (7/8), only the
`message.usage` values are extracted. -/
theorem usage_lookup_first_location_wins :
    (∀ (m : Message) (v : UsageVal), m.usage = some v → lookupUsageData m = v) ∧
    (∀ (m : Message) (md : MetadataObj) (v : UsageVal),
        m.usage = none → m.metadata = some md → md.usage = some v →
        lookupUsageData m = v) ∧
    (∀ (m : Message) (c : CustomObj) (v : UsageVal),
        m.usage = none →
        (m.metadata = none ∨ ∃ md, m.metadata = some md ∧ md.usage = none) →
        m.custom = some c → c.usage = some v →
        lookupUsageData m = v) ∧
    (∀ (m : Message),
        m.usage = none →
        (m.metadata = none ∨ ∃ md, m.metadata = some md ∧ md.usage = none) →
        (m.custom = none ∨ ∃ c, m.custom = some c ∧ c.usage = none) →
        lookupUsageData m = none) ∧
    (∀ (now : String) (r : LogRecord),
        (r.message.getD emptyMessage).usage = some none →
        extractUsageFromLine now r = none) ∧
    (∀ (now : String) (r : LogRecord) (md : MetadataObj),
        (r.message.getD emptyMessage).usage = none →
        (r.message.getD emptyMessage).metadata = some md →
        md.usage = some none →
        extractUsageFromLine now r = none) ∧
    (priorityRec.message.getD emptyMessage).usage = some (some mainUsage) ∧
    (priorityRec.message.getD emptyMessage).metadata =
      some ⟨some (some metaUsage), none, none⟩ ∧
    mainUsage ≠ metaUsage ∧
    (extractUsageFromLine "t0" priorityRec).map
      (fun e => (e.input_tokens, e.output_tokens)) = some (100, 50) := by
  refine ⟨?_, ?_, ?_, ?_, ?_, ?_, by decide, by decide, by decide, by decide⟩
  · intro m v h
    unfold lookupUsageData
    rw [h]
  · intro m md v h1 h2 h3
    unfold lookupUsageData
    simp [h1, h2, h3]
  · intro m c v h1 hmd hc hcu
    have hcv : customUsage m = v := by
      unfold customUsage
      simp [hc, hcu]
    rcases hmd with hmd | ⟨md, hmd, hu⟩
    · unfold lookupUsageData
      simp [h1, hmd, hcv]
    · unfold lookupUsageData
      simp [h1, hmd, hu, hcv]
  · intro m h1 hmd hc
    have hcu : customUsage m = none := by
      rcases hc with hc | ⟨c, hc, hu⟩
      · unfold customUsage
        simp [hc]
      · unfold customUsage
        simp [hc, hu]
    rcases hmd with hmd | ⟨md, hmd, hu⟩
    · unfold lookupUsageData
      simp [h1, hmd, hcu]
    · unfold lookupUsageData
      simp [h1, hmd, hu, hcu]
  · intro now r h
    apply extract_of_lookup_none
    unfold lookupUsageData
    rw [h]
  · intro now r md h1 h2 h3
    apply extract_of_lookup_none
    unfold lookupUsageData
    simp [h1, h2, h3]

/-- C2 witness: the first clause applied to the scenario message, whose
`usage` key is present, evaluates the fallback chain to that value. -/
theorem usage_lookup_first_location_wins_witness :
    lookupUsageData (priorityRec.message.getD emptyMessage) = some mainUsage :=
  usage_lookup_first_location_wins.1 (priorityRec.message.getD emptyMessage)
    (some mainUsage) rfl

/-- C5: for every extracted usage fact built from a found usage value
`u`: when the source `total_tokens` is absent or zero, the fact's
`total_tokens` is `input_tokens + output_tokens`; and when the source
`total_cost` is absent or zero, the fact's `total_cost` is
`input_cost + output_cost` if at least one of those costs is nonzero,
and is left at zero otherwise. -/
theorem extract_completes_totals :
    ∀ (now : String) (r : LogRecord) (u : UsageFields) (e : UsageEntry),
      extractUsageFromLine now r = some e →
      lookupUsageData (r.message.getD emptyMessage) = some u →
      ((u.total_tokens = none ∨ u.total_tokens = some 0) →
          e.total_tokens = e.input_tokens + e.output_tokens) ∧
      ((u.total_cost = none ∨ u.total_cost = some 0) →
          (¬(e.input_cost = 0 ∧ e.output_cost = 0) →
              e.total_cost = e.input_cost + e.output_cost) ∧
          (e.input_cost = 0 ∧ e.output_cost = 0 → e.total_cost = 0)) := by
  intro now r u e hE hU
  rw [extract_eq_some_iff] at hE
  obtain ⟨-, -, u', hU', he⟩ := hE
  rw [hU] at hU'
  injection hU' with h'
  subst h'
  subst he
  constructor
  · intro ht
    have h0 : u.total_tokens.getD 0 = 0 := by rcases ht with h | h <;> simp [h]
    rw [mkUsageEntry_total_tokens, mkUsageEntry_input_tokens, mkUsageEntry_output_tokens, h0]
    split_ifs with h
    · rfl
    · omega
  · intro hc
    have h0 : u.total_cost.getD 0 = 0 := by rcases hc with h | h <;> simp [h]
    rw [mkUsageEntry_total_cost, mkUsageEntry_input_cost, mkUsageEntry_output_cost, h0]
    constructor
    · intro hne
      rw [if_pos ?_]
      rcases not_and_or.mp hne with h | h
      · exact ⟨rfl, Or.inl (pos_iff_ne_zero.mpr (by simpa [mkUsageEntry_input_cost] using h))⟩
      · exact ⟨rfl, Or.inr (pos_iff_ne_zero.mpr (by simpa [mkUsageEntry_output_cost] using h))⟩
    · intro hz
      obtain ⟨hic, hoc⟩ := hz
      rw [hic, hoc]
      simp

/-- The usage value carried by `plainUsageRec`. -/
def plainUsage : UsageFields :=
  { noFields with input_tokens := some 2, output_tokens := some 3 }

/-- C5 witness: on the concrete record whose usage value has 2 input and
3 output tokens and no `total_tokens` key, the extracted fact's
`total_tokens` is the sum of its token counts. -/
theorem extract_completes_totals_witness :
    (mkUsageEntry "t0" plainUsageRec plainUsage).total_tokens =
      (mkUsageEntry "t0" plainUsageRec plainUsage).input_tokens +
      (mkUsageEntry "t0" plainUsageRec plainUsage).output_tokens :=
  (extract_completes_totals "t0" plainUsageRec plainUsage
    (mkUsageEntry "t0" plainUsageRec plainUsage) rfl rfl).1 (Or.inl rfl)

/-- C4 counterexample: on `shadowedModelRec` the model `"gpt-4o"` is set
directly on the message, yet because the provider is absent and
`metadata` is present, the extractor re-reads both provider and model
from `metadata` and returns model `"other"`, not `"gpt-4o"`: the claim
that a model set directly on the message is returned unchanged
regardless of provider and metadata is false. -/
theorem model_overwritten_by_metadata :
    (shadowedModelRec.message.getD emptyMessage).model = some "gpt-4o" ∧
    (extractUsageFromLine "t0" shadowedModelRec).map UsageEntry.model =
      some (some "other") ∧
    (some "other" : Option String) ≠ some "gpt-4o" := by
  refine ⟨by decide, by decide, by decide⟩

/-- C4 as amended: provider and model are first read from the message;
the metadata fallback replaces them (both of them) only when the
message's provider is falsy and `metadata` is present, so a model set
directly on the message is returned unchanged whenever the message's
provider is truthy or `metadata` is absent; when the provider is falsy
and `metadata` is present, the extracted model is `metadata`'s model,
whatever was set on the message. -/
theorem extract_model_resolution :
    ∀ (now : String) (r : LogRecord) (e : UsageEntry),
      extractUsageFromLine now r = some e →
      ((strTruthy (r.message.getD emptyMessage).provider = true ∨
          (r.message.getD emptyMessage).metadata = none) →
        e.model = (r.message.getD emptyMessage).model) ∧
      (∀ md, strTruthy (r.message.getD emptyMessage).provider = false →
          (r.message.getD emptyMessage).metadata = some md →
        e.model = md.model) := by
  intro now r e hE
  rw [extract_eq_some_iff] at hE
  obtain ⟨-, -, u, -, he⟩ := hE
  subst he
  rw [mkUsageEntry_model]
  constructor
  · intro h
    unfold resolveProviderModel
    rcases h with h | h
    · simp [h, apply_ite]
    · simp [h, apply_ite]
  · intro md h1 h2
    unfold resolveProviderModel
    simp [h1, h2, apply_ite]

/-- C4 amended-claim witness: on the concrete record whose message
carries the truthy provider `"openai"`, the extracted model is the
message's own model. -/
theorem extract_model_resolution_witness :
    (mkUsageEntry "t0" priorityRec mainUsage).model =
      (priorityRec.message.getD emptyMessage).model :=
  (extract_model_resolution "t0" priorityRec
    (mkUsageEntry "t0" priorityRec mainUsage) rfl).1 (Or.inl rfl)

/-- C9 counterexample: for the record `noteRec`, whose type is not
`"message"`, extraction is "not applicable" and nothing is retained, so
the claim that the raw record is retained for audit storage regardless
of extraction outcome — in particular when the record is deemed not
applicable — is false. -/
theorem raw_not_retained_when_not_applicable :
    ¬ ∃ e : UsageEntry, extractUsageFromLine "t0" noteRec = some e ∧
        e.raw_data = noteRec := by
  rintro ⟨e, hE, -⟩
  have h : extractUsageFromLine "t0" noteRec = none := by decide
  rw [h] at hE
  exact Option.noConfusion hE

/-- C9 as amended: the raw input record is preserved verbatim in the
fact's `raw_data` field whenever extraction yields a usage fact; when
the record is deemed not applicable the extractor returns nothing and no
raw data is retained. -/
theorem extract_preserves_raw_data :
    ∀ (now : String) (r : LogRecord) (e : UsageEntry),
      extractUsageFromLine now r = some e → e.raw_data = r := by
  intro now r e hE
  rw [extract_eq_some_iff] at hE
  obtain ⟨-, -, u, -, he⟩ := hE
  subst he
  exact mkUsageEntry_raw_data now r u

/-- C9 amended-claim witness: extraction on the concrete applicable
record yields a fact whose `raw_data` is that record. -/
theorem extract_preserves_raw_data_witness :
    (mkUsageEntry "t0" plainUsageRec plainUsage).raw_data = plainUsageRec :=
  extract_preserves_raw_data "t0" plainUsageRec
    (mkUsageEntry "t0" plainUsageRec plainUsage) rfl

/-- C1: the persist path recomputes costs if and only if the extracted
`total_cost` is exactly zero, at least one token count is positive, and
the catalog pricing lookup succeeded (which happens exactly when the
resolved model row has both unit costs recorded); when it recomputes,
`input_cost = input_tokens * input_unit_cost`,
`output_cost = output_tokens * output_unit_cost` and
`total_cost = input_cost + output_cost`; in every other case the
extractor's cost values pass through unchanged. -/
theorem cost_resolution_rule :
    (∀ (e : UsageEntry) (pricing : Option (ℚ≥0 × ℚ≥0)) (ic oc : ℚ≥0),
        pricing = some (ic, oc) → e.total_cost = 0 →
        (0 < e.input_tokens ∨ 0 < e.output_tokens) →
        resolveCosts e pricing =
          ⟨(e.input_tokens : ℚ≥0) * ic, (e.output_tokens : ℚ≥0) * oc,
           (e.input_tokens : ℚ≥0) * ic + (e.output_tokens : ℚ≥0) * oc⟩) ∧
    (∀ (e : UsageEntry) (pricing : Option (ℚ≥0 × ℚ≥0)),
        (pricing = none ∨ e.total_cost ≠ 0 ∨
          (e.input_tokens = 0 ∧ e.output_tokens = 0)) →
        resolveCosts e pricing = ⟨e.input_cost, e.output_cost, e.total_cost⟩) ∧
    (∀ (mid : ℕ) (s : DBState),
        (getModelPricing mid s).isSome = true ↔
          ∃ m, s.models.find? (fun row => row.id == mid) = some m ∧
            m.input_cost.isSome = true ∧ m.output_cost.isSome = true) := by
  refine ⟨?_, ?_, ?_⟩
  · intro e pricing ic oc hp htc htok
    subst hp
    unfold resolveCosts
    rw [if_pos ⟨htc, htok⟩]
  · intro e pricing h
    unfold resolveCosts
    rcases h with h | h | h
    · subst h
      split_ifs with h2 <;> rfl
    · rw [if_neg (fun h2 => h h2.1)]
    · rw [if_neg ?_]
      rintro ⟨-, h2 | h2⟩
      · rw [h.1] at h2
        exact lt_irrefl 0 h2
      · rw [h.2] at h2
        exact lt_irrefl 0 h2
  · intro mid s
    unfold getModelPricing
    rcases hf : s.models.find? (fun row => row.id == mid) with _ | m
    · simp [hf]
    · rcases hic : m.input_cost with _ | a <;> rcases hoc : m.output_cost with _ | b <;>
        simp [hf, hic, hoc]

/-- A usage fact with zero extracted cost and one input token, used to
exercise the recomputation branch. -/
def oneTokenFact : UsageEntry :=
  { plainFact with input_tokens := 1, output_tokens := 0, total_tokens := 1 }

/-- C1 witness: with pricing (3, 5), a zero-cost fact with one input
token and no output tokens gets costs recomputed to (3, 0, 3). -/
theorem cost_resolution_rule_witness :
    resolveCosts oneTokenFact (some (3, 5)) = ⟨3, 0, 3⟩ := by
  have h := cost_resolution_rule.1 oneTokenFact (some (3, 5)) 3 5 rfl rfl
    (Or.inl (by decide))
  rw [h]
  simp [oneTokenFact, plainFact]

/-- C7: a failure while persisting one fact never aborts the batch:
whatever the per-fact step does, the success log has one outcome per
fact (every fact is attempted), the returned count is exactly the number
of facts whose insertion succeeded, and a failing head leaves the rest
of the batch to be processed from the same state with the same count. -/
theorem save_batch_failure_isolation :
    ∀ (step : UsageEntry → DBState → Option DBState)
      (entries : List UsageEntry) (s : DBState),
      (saveEntriesWith step entries s).2.1.length = entries.length ∧
      (saveEntriesWith step entries s).1 =
        (saveEntriesWith step entries s).2.1.count true ∧
      (∀ e rest, step e s = none →
          saveEntriesWith step (e :: rest) s =
            ((saveEntriesWith step rest s).1,
             false :: (saveEntriesWith step rest s).2.1,
             (saveEntriesWith step rest s).2.2)) := by
  intro step entries s
  refine ⟨?_, ?_, ?_⟩
  · induction entries generalizing s with
    | nil => rfl
    | cons e rest ih =>
      simp only [saveEntriesWith]
      cases step e s <;> simp [ih]
  · induction entries generalizing s with
    | nil => rfl
    | cons e rest ih =>
      simp only [saveEntriesWith]
      cases step e s <;> simp [ih, List.count_cons]
  · intro e rest h
    simp [saveEntriesWith, h]

/-- C7 witness: with a step that fails on every fact, a singleton batch
is fully attempted, inserts nothing, and leaves the state unchanged. -/
theorem save_batch_failure_isolation_witness :
    saveEntriesWith (fun _ _ => none) [plainFact] emptyDB = (0, [false], emptyDB) :=
  (save_batch_failure_isolation (fun _ _ => none) [] emptyDB).2.2 plainFact [] rfl

theorem gocProvider_models (p : Option String) (s : DBState) :
    ((getOrCreateProvider p s).2).models = s.models := by
  unfold getOrCreateProvider
  dsimp only
  split <;> rfl

theorem gocProvider_sessions (p : Option String) (s : DBState) :
    ((getOrCreateProvider p s).2).sessions = s.sessions := by
  unfold getOrCreateProvider
  dsimp only
  split <;> rfl

theorem gocProvider_entries (p : Option String) (s : DBState) :
    ((getOrCreateProvider p s).2).entries = s.entries := by
  unfold getOrCreateProvider
  dsimp only
  split <;> rfl

theorem gocProvider_providers_append (p : Option String) (s : DBState) :
    ∃ l, ((getOrCreateProvider p s).2).providers = s.providers ++ l := by
  unfold getOrCreateProvider
  dsimp only
  split
  · exact ⟨[], (List.append_nil _).symm⟩
  · exact ⟨_, rfl⟩

theorem gocModel_providers (pid : ℕ) (m : Option String) (s : DBState) :
    ((getOrCreateModel pid m s).2).providers = s.providers := by
  unfold getOrCreateModel
  dsimp only
  split <;> rfl

theorem gocModel_sessions (pid : ℕ) (m : Option String) (s : DBState) :
    ((getOrCreateModel pid m s).2).sessions = s.sessions := by
  unfold getOrCreateModel
  dsimp only
  split <;> rfl

theorem gocModel_entries (pid : ℕ) (m : Option String) (s : DBState) :
    ((getOrCreateModel pid m s).2).entries = s.entries := by
  unfold getOrCreateModel
  dsimp only
  split <;> rfl

theorem gocModel_models_append (pid : ℕ) (m : Option String) (s : DBState) :
    ∃ l, ((getOrCreateModel pid m s).2).models = s.models ++ l := by
  unfold getOrCreateModel
  dsimp only
  split
  · exact ⟨[], (List.append_nil _).symm⟩
  · exact ⟨_, rfl⟩

theorem gocSession_providers (k : Option String) (t : String) (s : DBState) :
    ((getOrCreateSession k t s).2).providers = s.providers := by
  unfold getOrCreateSession
  dsimp only
  split <;> rfl

theorem gocSession_models (k : Option String) (t : String) (s : DBState) :
    ((getOrCreateSession k t s).2).models = s.models := by
  unfold getOrCreateSession
  dsimp only
  split <;> rfl

theorem gocSession_entries (k : Option String) (t : String) (s : DBState) :
    ((getOrCreateSession k t s).2).entries = s.entries := by
  unfold getOrCreateSession
  dsimp only
  split <;> rfl

/-- `persistFact` appends exactly one usage entry row, and that row has
all four cache columns hard-coded to zero (`parser.py:270-272`). -/
theorem persistFact_entries (e : UsageEntry) (s : DBState) :
    ∃ row, (persistFact e s).entries = s.entries ++ [row] ∧
      row.cache_read_tokens = 0 ∧ row.cache_write_tokens = 0 ∧
      row.cache_read_cost = 0 ∧ row.cache_write_cost = 0 := by
  unfold persistFact
  dsimp only
  rw [gocSession_entries, gocModel_entries, gocProvider_entries]
  exact ⟨_, rfl, rfl, rfl, rfl, rfl⟩

theorem saveUE_nil (s : DBState) : saveUsageEntries [] s = (0, s) := rfl

theorem saveUE_cons (e : UsageEntry) (rest : List UsageEntry) (s : DBState) :
    saveUsageEntries (e :: rest) s =
      ((saveUsageEntries rest (persistFact e s)).1 + 1,
       (saveUsageEntries rest (persistFact e s)).2) := by
  simp [saveUsageEntries, saveEntriesWith]

/-- C10: every usage entry row that `save_usage_entries` adds to the
store has `cache_read_tokens`, `cache_write_tokens`, `cache_read_cost`
and `cache_write_cost` all zero — the ingestion path never populates the
cache columns. -/
theorem inserted_rows_have_zero_cache_fields :
    ∀ (entries : List UsageEntry) (s : DBState) (row : UsageEntryRow),
      row ∈ (saveUsageEntries entries s).2.entries →
      row ∈ s.entries ∨
        (row.cache_read_tokens = 0 ∧ row.cache_write_tokens = 0 ∧
         row.cache_read_cost = 0 ∧ row.cache_write_cost = 0) := by
  intro entries
  induction entries with
  | nil => exact fun s row h => Or.inl h
  | cons e rest ih =>
    intro s row h
    rw [saveUE_cons] at h
    rcases ih (persistFact e s) row h with h1 | h1
    · obtain ⟨r0, hr0, hc⟩ := persistFact_entries e s
      rw [hr0] at h1
      rcases List.mem_append.mp h1 with h2 | h2
      · exact Or.inl h2
      · rw [List.mem_singleton.mp h2]
        exact Or.inr hc
    · exact Or.inr h1

/-- C10 witness: the single row inserted for the concrete fact is not a
pre-existing row of the empty store, hence had zero cache fields. -/
theorem inserted_rows_have_zero_cache_fields_witness :
    (⟨1, 1, 1, 2, 0, 0, 0, 0, 0, 0, 0, "t", nullRecord⟩ : UsageEntryRow) ∈
        emptyDB.entries ∨
      ((⟨1, 1, 1, 2, 0, 0, 0, 0, 0, 0, 0, "t", nullRecord⟩ : UsageEntryRow).cache_read_tokens = 0 ∧
       (⟨1, 1, 1, 2, 0, 0, 0, 0, 0, 0, 0, "t", nullRecord⟩ : UsageEntryRow).cache_write_tokens = 0 ∧
       (⟨1, 1, 1, 2, 0, 0, 0, 0, 0, 0, 0, "t", nullRecord⟩ : UsageEntryRow).cache_read_cost = 0 ∧
       (⟨1, 1, 1, 2, 0, 0, 0, 0, 0, 0, 0, "t", nullRecord⟩ : UsageEntryRow).cache_write_cost = 0) :=
  inserted_rows_have_zero_cache_fields [plainFact] emptyDB
    ⟨1, 1, 1, 2, 0, 0, 0, 0, 0, 0, 0, "t", nullRecord⟩ (by decide)

/-- C8: a JSON decode failure on one line is never fatal to the file —
the parse loop treats a malformed line exactly like a skipped blank
line, so all remaining lines are still processed; and on the concrete
directory with one file of 3 valid usage lines plus 1 malformed line and
one file with 0 usage lines, the directory scan reports 2 files
processed and 3 entries persisted. -/
theorem malformed_line_only_skips_that_line :
    (∀ (now : String) (inc : Bool) (last : ℕ) (ls1 ls2 : List FileLine) (n : ℕ),
        parseLines now inc last (ls1 ++ FileLine.malformed :: ls2) n =
          parseLines now inc last (ls1 ++ FileLine.blank :: ls2) n) ∧
    (parseDirectory "t0" [scanFileA, scanFileB] emptyDB).1 = 2 ∧
    (parseDirectory "t0" [scanFileA, scanFileB] emptyDB).2.1 = 3 := by
  refine ⟨?_, by decide, by decide⟩
  intro now inc last ls1 ls2 n
  induction ls1 generalizing n with
  | nil => rfl
  | cons l ls ih =>
    simp only [List.cons_append, parseLines, List.append_eq, ih]

/-- When a provider row with the looked-up name already exists, the
fetch branch fires: the call returns that row's id and leaves the store
untouched. -/
theorem gocProvider_of_found {p : Option String} {s : DBState} {r : ProviderRow}
    (hr : s.providers.find? (fun row => row.name == normProviderName p) = some r) :
    getOrCreateProvider p s = (r.id, s) := by
  unfold getOrCreateProvider
  dsimp only
  rw [hr]

/-- When no provider row with the looked-up name exists, the insert
branch fires: a fresh row is appended and its `lastrowid` returned. -/
theorem gocProvider_of_notfound {p : Option String} {s : DBState}
    (hf : s.providers.find? (fun row => row.name == normProviderName p) = none) :
    getOrCreateProvider p s =
      (s.nextProviderId,
       { s with providers := s.providers ++ [⟨s.nextProviderId, normProviderName p⟩]
                nextProviderId := s.nextProviderId + 1 }) := by
  unfold getOrCreateProvider
  dsimp only
  rw [hf]

/-- After any `getOrCreateProvider` call, a row with the looked-up name
exists and carries the returned id. -/
theorem gocProvider_found (p : Option String) (s : DBState) :
    ∃ r, ((getOrCreateProvider p s).2).providers.find?
        (fun row => row.name == normProviderName p) = some r ∧
      r.id = (getOrCreateProvider p s).1 := by
  rcases hf : s.providers.find? (fun row => row.name == normProviderName p) with _ | r
  · rw [gocProvider_of_notfound hf]
    refine ⟨⟨s.nextProviderId, normProviderName p⟩, ?_, rfl⟩
    dsimp only
    rw [find?_append_none _ _ hf]
    simp [List.find?]
  · rw [gocProvider_of_found hf]
    exact ⟨r, hf, rfl⟩

/-- When a model row with the looked-up `(provider_id, model_id)` pair
already exists, the fetch branch fires: the call returns that row's id
and leaves the store untouched. -/
theorem gocModel_of_found {pid : ℕ} {m : Option String} {s : DBState} {r : ModelRow}
    (hr : s.models.find? (fun row => row.provider_id == pid &&
        row.model_id == sanitizeModelId (normModelName m)) = some r) :
    getOrCreateModel pid m s = (r.id, s) := by
  unfold getOrCreateModel
  dsimp only
  rw [hr]

/-- When no model row with the looked-up pair exists, the insert branch
fires: a fresh row with null pricing is appended and its `lastrowid`
returned. -/
theorem gocModel_of_notfound {pid : ℕ} {m : Option String} {s : DBState}
    (hf : s.models.find? (fun row => row.provider_id == pid &&
        row.model_id == sanitizeModelId (normModelName m)) = none) :
    getOrCreateModel pid m s =
      (s.nextModelId,
       { s with models := s.models ++ [⟨s.nextModelId, pid,
            sanitizeModelId (normModelName m), normModelName m, none, none⟩]
                nextModelId := s.nextModelId + 1 }) := by
  unfold getOrCreateModel
  dsimp only
  rw [hf]

/-- After any `getOrCreateModel` call, a row with the looked-up pair
exists and carries the returned id. -/
theorem gocModel_found (pid : ℕ) (m : Option String) (s : DBState) :
    ∃ r, ((getOrCreateModel pid m s).2).models.find?
        (fun row => row.provider_id == pid &&
          row.model_id == sanitizeModelId (normModelName m)) = some r ∧
      r.id = (getOrCreateModel pid m s).1 := by
  rcases hf : s.models.find? (fun row => row.provider_id == pid &&
      row.model_id == sanitizeModelId (normModelName m)) with _ | r
  · rw [gocModel_of_notfound hf]
    refine ⟨⟨s.nextModelId, pid, sanitizeModelId (normModelName m),
      normModelName m, none, none⟩, ?_, rfl⟩
    dsimp only
    rw [find?_append_none _ _ hf]
    simp [List.find?]
  · rw [gocModel_of_found hf]
    exact ⟨r, hf, rfl⟩

/-- A fact whose provider row (by name) and model row (by the provider's
resolved id and sanitized model id) already exist in the store. -/
def factKnown (e : UsageEntry) (s : DBState) : Prop :=
  ∃ r, s.providers.find? (fun row => row.name == normProviderName e.provider) = some r ∧
    (s.models.find? (fun row => row.provider_id == r.id &&
        row.model_id == sanitizeModelId (normModelName e.model))).isSome = true

theorem factKnown_of_tables_eq {e : UsageEntry} {s s' : DBState}
    (hp : s'.providers = s.providers) (hm : s'.models = s.models)
    (h : factKnown e s) : factKnown e s' := by
  obtain ⟨r, hr, hmm⟩ := h
  exact ⟨r, hp ▸ hr, hm ▸ hmm⟩

theorem factKnown_mono {e : UsageEntry} {s s' : DBState}
    (hp : ∃ lp, s'.providers = s.providers ++ lp)
    (hm : ∃ lm, s'.models = s.models ++ lm)
    (h : factKnown e s) : factKnown e s' := by
  obtain ⟨lp, hp⟩ := hp
  obtain ⟨lm, hm⟩ := hm
  obtain ⟨r, hr, hmm⟩ := h
  obtain ⟨mr, hmr⟩ := Option.isSome_iff_exists.mp hmm
  refine ⟨r, ?_, ?_⟩
  · rw [hp]
    exact find?_append_some _ _ hr
  · rw [hm, find?_append_some _ _ hmr]
    rfl

theorem persistFact_providers_append (e : UsageEntry) (s : DBState) :
    ∃ lp, (persistFact e s).providers = s.providers ++ lp := by
  unfold persistFact
  dsimp only
  rw [gocSession_providers, gocModel_providers]
  exact gocProvider_providers_append e.provider s

theorem persistFact_models_append (e : UsageEntry) (s : DBState) :
    ∃ lm, (persistFact e s).models = s.models ++ lm := by
  unfold persistFact
  dsimp only
  rw [gocSession_models]
  obtain ⟨lm, hlm⟩ := gocModel_models_append
    (getOrCreateProvider e.provider s).1 e.model (getOrCreateProvider e.provider s).2
  rw [hlm, gocProvider_models]
  exact ⟨lm, rfl⟩

/-- After persisting a fact, its provider and model rows exist. -/
theorem persistFact_known_self (e : UsageEntry) (s : DBState) :
    factKnown e (persistFact e s) := by
  obtain ⟨r, hr, hid⟩ := gocProvider_found e.provider s
  obtain ⟨mr, hmr, hmid⟩ := gocModel_found
    (getOrCreateProvider e.provider s).1 e.model (getOrCreateProvider e.provider s).2
  refine ⟨r, ?_, ?_⟩
  · show (persistFact e s).providers.find? _ = some r
    unfold persistFact
    dsimp only
    rw [gocSession_providers, gocModel_providers]
    exact hr
  · unfold persistFact
    dsimp only
    rw [gocSession_models, hid]
    rw [hmr]
    rfl

/-- Persisting a fact whose provider and model rows already exist leaves
the `providers` and `models` tables unchanged. -/
theorem persistFact_of_known {e : UsageEntry} {s : DBState} (h : factKnown e s) :
    (persistFact e s).providers = s.providers ∧ (persistFact e s).models = s.models := by
  obtain ⟨r, hr, hm⟩ := h
  obtain ⟨mr, hmr⟩ := Option.isSome_iff_exists.mp hm
  have h1 : getOrCreateProvider e.provider s = (r.id, s) := gocProvider_of_found hr
  have h2 : getOrCreateModel r.id e.model s = (mr.id, s) := gocModel_of_found hmr
  unfold persistFact
  dsimp only
  rw [h1]
  dsimp only
  rw [h2]
  dsimp only
  rw [gocSession_providers, gocSession_models]
  exact ⟨rfl, rfl⟩

theorem saveUE_providers_append :
    ∀ (entries : List UsageEntry) (s : DBState),
      ∃ lp, (saveUsageEntries entries s).2.providers = s.providers ++ lp := by
  intro entries
  induction entries with
  | nil => exact fun s => ⟨[], (List.append_nil _).symm⟩
  | cons e rest ih =>
    intro s
    rw [saveUE_cons]
    obtain ⟨l1, h1⟩ := persistFact_providers_append e s
    obtain ⟨l2, h2⟩ := ih (persistFact e s)
    exact ⟨l1 ++ l2, by rw [h2, h1, List.append_assoc]⟩

theorem saveUE_models_append :
    ∀ (entries : List UsageEntry) (s : DBState),
      ∃ lm, (saveUsageEntries entries s).2.models = s.models ++ lm := by
  intro entries
  induction entries with
  | nil => exact fun s => ⟨[], (List.append_nil _).symm⟩
  | cons e rest ih =>
    intro s
    rw [saveUE_cons]
    obtain ⟨l1, h1⟩ := persistFact_models_append e s
    obtain ⟨l2, h2⟩ := ih (persistFact e s)
    exact ⟨l1 ++ l2, by rw [h2, h1, List.append_assoc]⟩

/-- After a whole batch is saved, every fact of the batch has its
provider and model rows in the store. -/
theorem saveUE_all_known :
    ∀ (entries : List UsageEntry) (s : DBState) (f : UsageEntry),
      f ∈ entries → factKnown f (saveUsageEntries entries s).2 := by
  intro entries
  induction entries with
  | nil => intro s f h; exact absurd h (List.not_mem_nil f)
  | cons e rest ih =>
    intro s f hf
    rw [saveUE_cons]
    rcases List.mem_cons.mp hf with h | h
    · subst h
      exact factKnown_mono (saveUE_providers_append rest (persistFact f s))
        (saveUE_models_append rest (persistFact f s)) (persistFact_known_self f s)
    · exact ih (persistFact e s) f h

/-- Saving a batch whose facts are all already catalogued leaves the
`providers` and `models` tables unchanged. -/
theorem saveUE_of_all_known :
    ∀ (entries : List UsageEntry) (s : DBState),
      (∀ f ∈ entries, factKnown f s) →
      (saveUsageEntries entries s).2.providers = s.providers ∧
      (saveUsageEntries entries s).2.models = s.models := by
  intro entries
  induction entries with
  | nil => exact fun s _ => ⟨rfl, rfl⟩
  | cons e rest ih =>
    intro s h
    rw [saveUE_cons]
    obtain ⟨hp, hm⟩ := persistFact_of_known (h e (List.mem_cons_self e rest))
    have hrest : ∀ f ∈ rest, factKnown f (persistFact e s) := fun f hf =>
      factKnown_of_tables_eq hp hm (h f (List.mem_cons_of_mem e hf))
    obtain ⟨hp2, hm2⟩ := ih (persistFact e s) hrest
    exact ⟨hp2.trans hp, hm2.trans hm⟩

theorem saveUE_entries_length :
    ∀ (entries : List UsageEntry) (s : DBState),
      (saveUsageEntries entries s).2.entries.length =
        s.entries.length + entries.length := by
  intro entries
  induction entries with
  | nil => intro s; rfl
  | cons e rest ih =>
    intro s
    rw [saveUE_cons]
    obtain ⟨row, hrow, -⟩ := persistFact_entries e s
    rw [ih (persistFact e s), hrow]
    simp [Nat.add_assoc, Nat.add_comm 1]

/-- C3: catalog create-or-fetch is idempotent. Repeating a
`getOrCreateProvider` or `getOrCreateModel` call returns the same id and
the same store; when a row with the looked-up identity already exists,
no second row is created (the store is returned unchanged); and saving
the same fact batch twice leaves the `providers` and `models` tables
exactly as after the first save, while the `usage_entries` table grows
by the batch size again (entry rows are duplicated). -/
theorem catalog_create_or_fetch_idempotent :
    (∀ (p : Option String) (s : DBState),
        getOrCreateProvider p ((getOrCreateProvider p s).2) = getOrCreateProvider p s) ∧
    (∀ (pid : ℕ) (m : Option String) (s : DBState),
        getOrCreateModel pid m ((getOrCreateModel pid m s).2) = getOrCreateModel pid m s) ∧
    (∀ (p : Option String) (s : DBState),
        (∃ r ∈ s.providers, r.name = normProviderName p) →
        ((getOrCreateProvider p s).2) = s) ∧
    (∀ (pid : ℕ) (m : Option String) (s : DBState),
        (∃ r ∈ s.models, r.provider_id = pid ∧
            r.model_id = sanitizeModelId (normModelName m)) →
        ((getOrCreateModel pid m s).2) = s) ∧
    (∀ (entries : List UsageEntry) (s : DBState),
        (saveUsageEntries entries ((saveUsageEntries entries s).2)).2.providers =
          (saveUsageEntries entries s).2.providers ∧
        (saveUsageEntries entries ((saveUsageEntries entries s).2)).2.models =
          (saveUsageEntries entries s).2.models ∧
        (saveUsageEntries entries ((saveUsageEntries entries s).2)).2.entries.length =
          (saveUsageEntries entries s).2.entries.length + entries.length) := by
  refine ⟨?_, ?_, ?_, ?_, ?_⟩
  · intro p s
    obtain ⟨r, hr, hid⟩ := gocProvider_found p s
    rw [gocProvider_of_found hr, hid]
  · intro pid m s
    obtain ⟨r, hr, hid⟩ := gocModel_found pid m s
    rw [gocModel_of_found hr, hid]
  · intro p s h
    obtain ⟨r, hmem, hname⟩ := h
    have hs : (s.providers.find? (fun row => row.name == normProviderName p)).isSome := by
      rw [List.find?_isSome]
      exact ⟨r, hmem, by simp [hname]⟩
    obtain ⟨r0, hr0⟩ := Option.isSome_iff_exists.mp hs
    rw [gocProvider_of_found hr0]
  · intro pid m s h
    obtain ⟨r, hmem, hpid, hmid⟩ := h
    have hs : (s.models.find? (fun row => row.provider_id == pid &&
        row.model_id == sanitizeModelId (normModelName m))).isSome := by
      rw [List.find?_isSome]
      exact ⟨r, hmem, by simp [hpid, hmid]⟩
    obtain ⟨r0, hr0⟩ := Option.isSome_iff_exists.mp hs
    rw [gocModel_of_found hr0]
  · intro entries s
    have hknown : ∀ f ∈ entries, factKnown f (saveUsageEntries entries s).2 :=
      fun f hf => saveUE_all_known entries s f hf
    obtain ⟨hp, hm⟩ := saveUE_of_all_known entries ((saveUsageEntries entries s).2) hknown
    exact ⟨hp, hm, saveUE_entries_length entries ((saveUsageEntries entries s).2)⟩

/-- C3 witness: fetching the already-seeded provider `"openai"` leaves
the seeded store unchanged. -/
theorem catalog_create_or_fetch_idempotent_witness :
    ((getOrCreateProvider (some "openai") seededDB).2) = seededDB :=
  catalog_create_or_fetch_idempotent.2.2.1 (some "openai") seededDB
    ⟨⟨1, "openai"⟩, by decide, by decide⟩
